import Mathlib

/-!
Shallow embedding of the two ns-3 scenario scripts of this repository,
`scratch/edgecloud_Stream2.cc` and `scratch/wifi_p2p.cc`.

Both programs are straight-line `main` functions: they parse integer
command-line parameters, create simulation nodes in a fixed order, assign
IPv4 address bases, install UDP echo client/server applications at node
indices computed with `uint32_t` arithmetic, and run the simulator.

The embedding models, per program:
  * the node-creation order (a list of node kinds; a node's index in the
    list is its `NodeList` index in ns-3),
  * the sequence of `Ipv4AddressHelper` operations (`SetBase`, `Assign`,
    `NewNetwork`),
  * the application-configuration loops, with all `uint32_t` arithmetic
    taken modulo `2^32`,
  * the iteration structure of every loop (for termination counting),
  * the final `Simulator::Stop/Run/Destroy` steps and the exit code.

Simulated times (seconds) are modelled as rationals.
-/

namespace EdgeSim

/-- Modulus of C `uint32_t` arithmetic. -/
def U32 : Nat := 4294967296

/-- One installed UDP echo server/client pair: the `NodeList` index the
`UdpEchoServerHelper` is installed on (`appSource`), the index the
`UdpEchoClientHelper` is installed on (`appSink`), and the hard-coded
start/stop times (in simulated seconds) passed to the applications. -/
structure EchoInstall where
  serverNode : Nat
  clientNode : Nat
  serverStart : Rat
  serverStop : Option Rat
  clientStart : Rat
  clientStop : Option Rat
  deriving DecidableEq

/-- Default value used with `List.getD` when reading an install record. -/
def defaultInstall : EchoInstall :=
  { serverNode := 0, clientNode := 0, serverStart := 0, serverStop := none,
    clientStart := 0, clientStop := none }

/-- The `Ipv4AddressHelper` operations each program performs, in program
order: `SetBase base mask`, `Assign` (to some device container), and
`NewNetwork`. An IPv4 address is four octets. -/
inductive AddrOp where
  | setBase (base : Nat × Nat × Nat × Nat) (mask : Nat × Nat × Nat × Nat)
  | assign
  | newNetwork
  deriving DecidableEq

/-- Recognizes the `SetBase` operations of an address trace. -/
def isSetBase : AddrOp → Bool
  | AddrOp.setBase _ _ => true
  | AddrOp.assign => false
  | AddrOp.newNetwork => false

/-- The simulator steps at the end of `main`: `Simulator::Stop` (with an
optional time bound in seconds), `Simulator::Run`, `Simulator::Destroy`. -/
inductive FinalStep where
  | stop (bound : Option Rat)
  | run
  | destroy
  deriving DecidableEq

namespace EdgecloudStream2

/-- `uint32_t nWifis = 6;` -/
def nWifisDefault : Nat := 6

/-- `uint32_t nStas = 4;` -/
def nStasDefault : Nat := 4

/-- `uint32_t p2pNode = 1;` (never overridden: not registered with the
command line). -/
def p2pNode : Nat := 1

/-- Kinds of nodes `edgecloud_Stream2.cc` creates, in creation order:
backbone/AP nodes, then one p2p remote node per wifi cell, then the
wifi stations. -/
inductive NodeKind where
  | backbone
  | p2p
  | sta
  deriving DecidableEq

/-- The global `NodeList` of `edgecloud_Stream2.cc` in creation order:
`backboneNodes.Create (nWifis)` first; then the p2p loop runs `nWifis`
times and each iteration does `p2pNodes.Create (1)`; then the wireless
loop runs `nWifis` times and each iteration does `stas.Create (nStas)`.
A node's index in this list is its `NodeList::GetNode` index. -/
def nodeList (nWifis nStas : Nat) : List NodeKind :=
  List.replicate nWifis NodeKind.backbone
    ++ (List.range nWifis).flatMap (fun _ => List.replicate 1 NodeKind.p2p)
    ++ (List.range nWifis).flatMap (fun _ => List.replicate nStas NodeKind.sta)

/-- State of the application-configuration loop: the `uint32_t` counters
`j` and `k`, and the echo applications installed so far. -/
structure AppState where
  j : Nat
  k : Nat
  installs : List EchoInstall
  deriving DecidableEq

/-- The echo pair one inner iteration installs: server on `firstNodeIndex`
with `Start (Seconds (1.0))`, client on `lastNodeIndex` with
`Start (Seconds (2.0))`; both `Stop` calls are commented out. -/
def mkInstall (server client : Nat) : EchoInstall :=
  { serverNode := server, clientNode := client,
    serverStart := 1, serverStop := none, clientStart := 2, clientStop := none }

/-- Body of the inner `for (uint32_t m = 0; m < nStas; ++m)` loop:
`lastNodeIndex = nWifis + nWifis*(p2pNode) + j` in `uint32_t` arithmetic,
install the echo pair, then `j += 1`. The loop variable `m` itself is not
read by the body. -/
def innerBody (nWifis firstNodeIndex : Nat) (s : AppState) : AppState :=
  { j := (s.j + 1) % U32, k := s.k,
    installs := s.installs
      ++ [mkInstall firstNodeIndex ((nWifis + nWifis * p2pNode + s.j) % U32)] }

/-- State after the first `m` iterations of the inner loop. -/
def innerLoop (nWifis firstNodeIndex : Nat) (s : AppState) : Nat → AppState
  | 0 => s
  | m + 1 => innerBody nWifis firstNodeIndex (innerLoop nWifis firstNodeIndex s m)

/-- Body of the outer `for (uint32_t i = 0; i < nWifis; ++i)` loop:
`if (i%2 == 0) { k += 2; }`, then `firstNodeIndex = nWifis + k` (all in
`uint32_t` arithmetic), then the inner loop runs `nStas` times. -/
def outerBody (nWifis nStas : Nat) (s : AppState) (i : Nat) : AppState :=
  let kNew := if i % 2 == 0 then (s.k + 2) % U32 else s.k
  innerLoop nWifis ((nWifis + kNew) % U32)
    { j := s.j, k := kNew, installs := s.installs } nStas

/-- State after the first `i` iterations of the outer loop, starting from
`uint32_t j = 0; uint32_t k = -2;` (so `k = 2^32 - 2`). -/
def appLoopAux (nWifis nStas : Nat) : Nat → AppState
  | 0 => { j := 0, k := U32 - 2, installs := [] }
  | i + 1 => outerBody nWifis nStas (appLoopAux nWifis nStas i) i

/-- Final state of the application-configuration loop of
`edgecloud_Stream2.cc`: the outer loop runs `nWifis` times. -/
def appLoop (nWifis nStas : Nat) : AppState := appLoopAux nWifis nStas nWifis

/-- The value of the counter `k` after `i` completed outer iterations. -/
def kAfterIter : Nat → Nat
  | 0 => U32 - 2
  | i + 1 => if i % 2 == 0 then (kAfterIter i + 2) % U32 else kAfterIter i

/-- Closed form of the value `k` holds while outer iteration `i` runs. -/
def kDuring (i : Nat) : Nat := (2 * (i / 2)) % U32

/-- Closed form of `firstNodeIndex` during outer iteration `i`. -/
def serverIndex (nWifis i : Nat) : Nat := (nWifis + kDuring i) % U32

/-- Closed form of `lastNodeIndex` at the `t`-th install (counting all
installs of the whole loop nest in order). -/
def clientIndex (nWifis t : Nat) : Nat := (nWifis + nWifis * p2pNode + t) % U32

/-- The argument of the `NodeList::GetNode (firstNodeIndex)` call the
outer loop makes during iteration `i`, before the inner loop runs - so
this index is computed and looked up even when `nStas = 0`:
`firstNodeIndex = nWifis + k` in `uint32_t` arithmetic, where `k` is the
counter value after the conditional `k += 2` of iteration `i`. Since the
inner loop never modifies `k`, that value is the `k` component the loop
state carries once iteration `i` has completed. -/
def sourceLookup (nWifis nStas i : Nat) : Nat :=
  (nWifis + (appLoopAux nWifis nStas (i + 1)).k) % U32

/-- The `Ipv4AddressHelper` trace of `edgecloud_Stream2.cc`: `SetBase`
192.168.0.0/255.255.255.0 and `Assign` for the backbone CSMA devices;
`SetBase` 172.16.0.0/255.255.255.0, then `Assign`/`NewNetwork` once per
p2p-loop iteration; `SetBase` 10.0.0.0/255.255.255.0, then
`Assign`/`NewNetwork` once per wireless-loop iteration. -/
def edgecloudAddrOps (nWifis : Nat) : List AddrOp :=
  [AddrOp.setBase (192, 168, 0, 0) (255, 255, 255, 0), AddrOp.assign]
    ++ [AddrOp.setBase (172, 16, 0, 0) (255, 255, 255, 0)]
    ++ (List.range nWifis).flatMap (fun _ => [AddrOp.assign, AddrOp.newNetwork])
    ++ [AddrOp.setBase (10, 0, 0, 0) (255, 255, 255, 0)]
    ++ (List.range nWifis).flatMap (fun _ => [AddrOp.assign, AddrOp.newNetwork])

/-- Every loop iteration `edgecloud_Stream2.cc` executes, tagged
`(loopId, outerIndex, innerIndex)`: the p2p construction loop (`nWifis`
iterations, each with an inner position loop over `p2pNodes.GetN () = 1`),
the wireless construction loop (`nWifis` iterations, each with an inner
position loop over `infra.GetN () = nStas + 1`), and the application loop
(`nWifis` outer times `nStas` inner iterations). -/
def edgecloudIterTrace (nWifis nStas : Nat) : List (Nat × Nat × Nat) :=
  (List.range nWifis).flatMap (fun i => (List.range 1).map (fun m => (1, i, m)))
    ++ (List.range nWifis).flatMap
        (fun i => (List.range (nStas + 1)).map (fun m => (2, i, m)))
    ++ (List.range nWifis).flatMap
        (fun i => (List.range nStas).map (fun m => (3, i, m)))

/-- `Simulator::Stop (); Simulator::Run (); Simulator::Destroy ();` -
the `Stop` call of `edgecloud_Stream2.cc` has no time bound. -/
def edgecloudFinalSteps : List FinalStep :=
  [FinalStep.stop none, FinalStep.run, FinalStep.destroy]

/-- `main` has no `return` statement, so it returns 0 implicitly. -/
def edgecloudExitCode : Nat := 0

end EdgecloudStream2

namespace WifiP2p

/-- `uint32_t backboneNodes = 3;` -/
def backboneNodesDefault : Nat := 3

/-- `uint32_t infraNodes = 2;` -/
def infraNodesDefault : Nat := 2

/-- `uint32_t lanNodes = 1;` -/
def lanNodesDefault : Nat := 1

/-- Kinds of nodes `wifi_p2p.cc` creates, in creation order: backbone
routers, then one LAN node per backbone node, then the wifi stations. -/
inductive NodeKindW where
  | backbone
  | lan
  | sta
  deriving DecidableEq

/-- The global `NodeList` of `wifi_p2p.cc` in creation order:
`backbone.Create (backboneNodes)` first; then the LAN loop runs
`backboneNodes` times and each iteration does `newLanNodes.Create (1)`;
then the wireless loop runs `backboneNodes` times and each iteration does
`stas.Create (infraNodes)`. (The `lanNodes` parameter is not used by any
`Create` call.) -/
def nodeListW (backboneNodes infraNodes : Nat) : List NodeKindW :=
  List.replicate backboneNodes NodeKindW.backbone
    ++ (List.range backboneNodes).flatMap (fun _ => List.replicate 1 NodeKindW.lan)
    ++ (List.range backboneNodes).flatMap
        (fun _ => List.replicate infraNodes NodeKindW.sta)

/-- `uint32_t firstNodeIndex = backboneNodes + 2;` (the `appSource` node
the echo server is installed on). -/
def firstNodeIndex (backboneNodes : Nat) : Nat := (backboneNodes + 2) % U32

/-- `uint32_t lastNodeIndex = backboneNodes + backboneNodes*(lanNodes);`
(the `appSink` node the echo client is installed on). -/
def lastNodeIndex (backboneNodes lanNodes : Nat) : Nat :=
  (backboneNodes + backboneNodes * lanNodes) % U32

/-- The single echo pair `wifi_p2p.cc` installs: server on
`firstNodeIndex` with `Start (Seconds (1.0))` / `Stop (Seconds (10.0))`,
client on `lastNodeIndex` with `Start (Seconds (2.0))` /
`Stop (Seconds (10.0))`. -/
def appInstallW (backboneNodes lanNodes : Nat) : EchoInstall :=
  { serverNode := firstNodeIndex backboneNodes,
    clientNode := lastNodeIndex backboneNodes lanNodes,
    serverStart := 1, serverStop := some 10,
    clientStart := 2, clientStop := some 10 }

/-- The `Ipv4AddressHelper` trace of `wifi_p2p.cc`: `SetBase`
192.168.0.0/255.255.255.0 and `Assign` for the backbone wifi devices;
`SetBase` 172.16.0.0/255.255.255.0, then `Assign`/`NewNetwork` once per
LAN-loop iteration; `SetBase` 10.0.0.0/255.255.255.0, then
`Assign`/`NewNetwork` once per wireless-loop iteration. -/
def wifiP2pAddrOps (backboneNodes : Nat) : List AddrOp :=
  [AddrOp.setBase (192, 168, 0, 0) (255, 255, 255, 0), AddrOp.assign]
    ++ [AddrOp.setBase (172, 16, 0, 0) (255, 255, 255, 0)]
    ++ (List.range backboneNodes).flatMap (fun _ => [AddrOp.assign, AddrOp.newNetwork])
    ++ [AddrOp.setBase (10, 0, 0, 0) (255, 255, 255, 0)]
    ++ (List.range backboneNodes).flatMap (fun _ => [AddrOp.assign, AddrOp.newNetwork])

/-- Every loop iteration `wifi_p2p.cc` executes, tagged
`(loopId, outerIndex, innerIndex)`: the LAN construction loop
(`backboneNodes` iterations, each with an inner position loop over
`newLanNodes.GetN () = 1`) and the wireless construction loop
(`backboneNodes` iterations, each with an inner position loop over
`infra.GetN () = infraNodes + 1`). The application section of
`wifi_p2p.cc` has no loop. -/
def wifiP2pIterTrace (backboneNodes infraNodes : Nat) : List (Nat × Nat × Nat) :=
  (List.range backboneNodes).flatMap (fun i => (List.range 1).map (fun m => (1, i, m)))
    ++ (List.range backboneNodes).flatMap
        (fun i => (List.range (infraNodes + 1)).map (fun m => (2, i, m)))

/-- `Simulator::Stop (Seconds (10.0)); Simulator::Run ();
Simulator::Destroy ();` -/
def wifiP2pFinalSteps : List FinalStep :=
  [FinalStep.stop (some 10), FinalStep.run, FinalStep.destroy]

/-- `main` has no `return` statement, so it returns 0 implicitly. -/
def wifiP2pExitCode : Nat := 0

end WifiP2p

end EdgeSim

namespace EdgeSim

open EdgecloudStream2 WifiP2p

/-- Length of a `flatMap` whose pieces all have the same length. -/
theorem length_flatMap_const {α β : Type} (l : List α) (f : α → List β) (c : Nat)
    (h : ∀ a ∈ l, (f a).length = c) : (l.flatMap f).length = l.length * c := by
  induction l with
  | nil => simp
  | cons a l ih =>
    simp only [List.flatMap_cons, List.length_append, List.length_cons]
    rw [h a (List.mem_cons_self a l), ih (fun x hx => h x (List.mem_cons_of_mem a hx))]
    ring

/-- Pointwise-equal maps over the same list are equal. -/
theorem map_congr_mem {α β : Type} {f g : α → β} :
    ∀ (l : List α), (∀ a ∈ l, f a = g a) → l.map f = l.map g := by
  intro l
  induction l with
  | nil => intro _; rfl
  | cons a l ih =>
    intro h
    simp only [List.map_cons]
    rw [h a (List.mem_cons_self a l), ih (fun x hx => h x (List.mem_cons_of_mem a hx))]

/-- The created node set of `edgecloud_Stream2.cc` has `nWifis * (2 + nStas)`
nodes. -/
theorem nodeList_length (N S : Nat) : (nodeList N S).length = N * (2 + S) := by
  simp only [nodeList, List.length_append, List.length_replicate]
  rw [length_flatMap_const _ _ 1 (by simp), length_flatMap_const _ _ S (by simp)]
  simp only [List.length_range]
  ring

/-- Closed form of the inner application loop of `edgecloud_Stream2.cc`. -/
theorem innerLoop_closed (N f : Nat) (s : AppState) (hj : s.j < U32) :
    ∀ S : Nat, innerLoop N f s S =
      { j := (s.j + S) % U32, k := s.k,
        installs := s.installs ++ (List.range S).map
          (fun m => mkInstall f ((N + N * p2pNode + (s.j + m)) % U32)) } := by
  intro S
  induction S with
  | zero => simp [innerLoop, Nat.mod_eq_of_lt hj]
  | succ S ih =>
    simp only [innerLoop]
    rw [ih]
    simp only [innerBody, List.range_succ, List.map_append, List.map_cons, List.map_nil,
      AppState.mk.injEq, List.append_assoc]
    refine ⟨?_, trivial, ?_⟩
    · rw [Nat.mod_add_mod, Nat.add_assoc]
    · rw [Nat.add_mod_mod]

/-- Closed form of the counter `k` during outer iteration `i`:
`k = 2 * (i / 2)` modulo `2^32`. -/
theorem kAfterIter_succ (i : Nat) : kAfterIter (i + 1) = (2 * (i / 2)) % U32 := by
  induction i with
  | zero => decide
  | succ i ih =>
    have hstep : kAfterIter (i + 1 + 1)
        = if (i + 1) % 2 == 0 then (kAfterIter (i + 1) + 2) % U32 else kAfterIter (i + 1) := rfl
    rw [hstep, ih]
    rcases Nat.mod_two_eq_zero_or_one (i + 1) with h | h
    · simp only [h, Nat.zero_mod]
      norm_num
      simp only [U32]
      omega
    · simp only [h]
      norm_num
      simp only [U32]
      omega

/-- Closed form of the whole application loop of `edgecloud_Stream2.cc`
after `i` outer iterations. -/
theorem appLoopAux_closed (N S : Nat) :
    ∀ i : Nat, appLoopAux N S i =
      { j := (i * S) % U32, k := kAfterIter i,
        installs := (List.range (i * S)).map
          (fun t => mkInstall (serverIndex N (t / S)) (clientIndex N t)) } := by
  intro i
  induction i with
  | zero => simp [appLoopAux, kAfterIter]
  | succ i ih =>
    have hkd : (if i % 2 == 0 then (kAfterIter i + 2) % U32 else kAfterIter i)
        = kAfterIter (i + 1) := rfl
    have hj : (i * S) % U32 < U32 := Nat.mod_lt _ (by simp [U32])
    simp only [appLoopAux]
    rw [ih]
    simp only [outerBody]
    rw [hkd, innerLoop_closed N _ _ hj S]
    simp only [AppState.mk.injEq]
    refine ⟨?_, trivial, ?_⟩
    · rw [Nat.mod_add_mod, Nat.succ_mul]
    · rw [Nat.succ_mul, List.range_add, List.map_append, List.map_map]
      refine congrArg _ ?_
      refine map_congr_mem _ ?_
      intro m hm
      have hmS : m < S := List.mem_range.mp hm
      have hS : 0 < S := by omega
      have hdiv : (i * S + m) / S = i := by
        rw [Nat.add_comm, Nat.mul_comm, Nat.add_mul_div_left m i hS, Nat.div_eq_of_lt hmS]
        exact Nat.zero_add i
      simp only [Function.comp, mkInstall, EchoInstall.mk.injEq, serverIndex, kDuring,
        clientIndex, hdiv, kAfterIter_succ, p2pNode, Nat.mul_one]
      refine ⟨trivial, ?_, trivial, trivial, trivial, trivial⟩
      simp only [U32]
      omega

end EdgeSim

namespace EdgeSim

open EdgecloudStream2 WifiP2p

/-- The install list of `edgecloud_Stream2.cc` in install order: the `t`-th
install pairs `serverIndex` of the outer iteration `t / nStas` with
`clientIndex` at `t`. -/
theorem installs_closed (N S : Nat) :
    (appLoop N S).installs = (List.range (N * S)).map
      (fun t => mkInstall (serverIndex N (t / S)) (clientIndex N t)) := by
  rw [appLoop, appLoopAux_closed N S N]

/-- The application loop installs exactly `nWifis * nStas` echo pairs. -/
theorem installs_length (N S : Nat) : ((appLoop N S).installs).length = N * S := by
  rw [installs_closed]
  simp

/-- Reading the `t`-th install record, for `t` within the loop bounds. -/
theorem installs_getD (N S t : Nat) (ht : t < N * S) :
    (appLoop N S).installs.getD t defaultInstall
      = mkInstall (serverIndex N (t / S)) (clientIndex N t) := by
  rw [installs_closed, List.getD_eq_getElem?_getD, List.getElem?_map,
    List.getElem?_range ht]
  rfl

/-- The construction loops perform no `SetBase` call. -/
theorem filter_isSetBase_loop (n : Nat) :
    (((List.range n).flatMap
        (fun _ => [AddrOp.assign, AddrOp.newNetwork])).filter isSetBase) = [] := by
  induction n with
  | zero => rfl
  | succ n ih =>
    rw [List.range_succ, List.flatMap_append, List.filter_append, ih]
    rfl

end EdgeSim

namespace EdgeSim

open EdgecloudStream2 WifiP2p

/-- The `(i, m)`-th install of the application loop is the
`(i * nStas + m)`-th install overall. -/
theorem install_position_lt (N S i m : Nat) (hi : i < N) (hm : m < S) :
    i * S + m < N * S := by
  calc i * S + m < i * S + S := by omega
  _ = (i + 1) * S := by ring
  _ ≤ N * S := Nat.mul_le_mul_right S hi

/-- The overall install position `i * nStas + m` determines the outer
iteration `i` back. -/
theorem install_position_div (i S m : Nat) (hm : m < S) : (i * S + m) / S = i := by
  have hS : 0 < S := by omega
  rw [Nat.add_comm, Nat.mul_comm, Nat.add_mul_div_left m i hS, Nat.div_eq_of_lt hm]
  exact Nat.zero_add i

/-- C1: in `edgecloud_Stream2` run with the default parameter set
(`nWifis = 6`, `nStas = 4`), the application-configuration loop installs
exactly `nWifis * nStas` UDP echo server applications - one
`echoServer.Install` call per inner iteration, `nWifis` outer iterations
times `nStas` inner iterations. -/
theorem c1_default_echo_server_count :
    nWifisDefault = 6 ∧ nStasDefault = 4 ∧
    ((appLoop nWifisDefault nStasDefault).installs).length
      = nWifisDefault * nStasDefault :=
  ⟨rfl, rfl, installs_length nWifisDefault nStasDefault⟩

/-- C2: the programs never check computed node indices against the created
node set; in `wifi_p2p` with `backboneNodes = 1`, `lanNodes = 1`,
`infraNodes = 1`, the index `firstNodeIndex = backboneNodes + 2 = 3` is
computed unconditionally although only 3 nodes exist, so the lookup falls
outside the created node set. -/
theorem c2_unvalidated_index_out_of_range :
    firstNodeIndex 1 = 3 ∧
    (nodeListW 1 1).length = 3 ∧
    ¬ firstNodeIndex 1 < (nodeListW 1 1).length := by decide

/-- C3 counterexample: at `nWifis = 2^31`, `nStas = 1`, the very first
sink index is computed in `uint32_t` arithmetic and wraps to 0, so it is
not the mathematical value `nWifis + nWifis * p2pNode + j` (which would be
`2^32`). -/
theorem c3_counterexample :
    ¬ ((appLoop (2 ^ 31) 1).installs.getD 0 defaultInstall).clientNode
        = 2 ^ 31 + 2 ^ 31 * p2pNode + 0 := by
  rw [installs_getD (2 ^ 31) 1 0 (by norm_num)]
  decide

/-- C3 (amended): for every outer iteration `i < nWifis` and inner
iteration `m < nStas`, the sink node index of the corresponding install
(the `(i * nStas + m)`-th overall) equals
`(nWifis + nWifis * p2pNode + j) mod 2^32` with `p2pNode = 1`, where the
counter `j` has counted the completed inner iterations, `i * nStas + m`
(reduced modulo `2^32`, which is the identity whenever
`nWifis * nStas ≤ 2^32`, so that `j` then ranges over
`0 .. nWifis * nStas - 1` in order). -/
theorem c3_amended_sink_formula (N S i m : Nat) (hi : i < N) (hm : m < S) :
    ((appLoop N S).installs).length = N * S ∧
    ((appLoop N S).installs.getD (i * S + m) defaultInstall).clientNode
      = (N + N * p2pNode + (i * S + m)) % U32 :=
  ⟨installs_length N S, by
    rw [installs_getD N S _ (install_position_lt N S i m hi hm)]
    rfl⟩

/-- Witness for C3 (amended) at `nWifis = 6`, `nStas = 4`, `i = 2`,
`m = 1`. -/
theorem c3_amended_witness :
    2 < 6 ∧ 1 < 4 ∧
    (((appLoop 6 4).installs).length = 6 * 4 ∧
      ((appLoop 6 4).installs.getD (2 * 4 + 1) defaultInstall).clientNode
        = (6 + 6 * p2pNode + (2 * 4 + 1)) % U32) :=
  ⟨by decide, by decide, c3_amended_sink_formula 6 4 2 1 (by decide) (by decide)⟩

end EdgeSim

namespace EdgeSim

open EdgecloudStream2 WifiP2p

/-- C4: each program performs exactly three `SetBase` calls, with the
hard-coded base/mask pairs 192.168.0.0/255.255.255.0 (backbone),
172.16.0.0/255.255.255.0 (wired branch links) and 10.0.0.0/255.255.255.0
(wireless access networks), in that order, whatever the command-line
counts are. -/
theorem c4_address_plan (n b : Nat) :
    (edgecloudAddrOps n).filter isSetBase
        = [AddrOp.setBase (192, 168, 0, 0) (255, 255, 255, 0),
           AddrOp.setBase (172, 16, 0, 0) (255, 255, 255, 0),
           AddrOp.setBase (10, 0, 0, 0) (255, 255, 255, 0)] ∧
    (wifiP2pAddrOps b).filter isSetBase
        = [AddrOp.setBase (192, 168, 0, 0) (255, 255, 255, 0),
           AddrOp.setBase (172, 16, 0, 0) (255, 255, 255, 0),
           AddrOp.setBase (10, 0, 0, 0) (255, 255, 255, 0)] := by
  constructor
  · simp only [edgecloudAddrOps, List.filter_append, filter_isSetBase_loop]
    rfl
  · simp only [wifiP2pAddrOps, List.filter_append, filter_isSetBase_loop]
    rfl

/-- C5: `wifi_p2p` calls `Simulator::Stop (Seconds (10.0))` before `Run`,
`edgecloud_Stream2` calls `Simulator::Stop ()` with no time bound before
`Run`, both then call `Simulator::Destroy`, and both `main` functions
return 0 implicitly. -/
theorem c5_stop_run_exit :
    wifiP2pFinalSteps
        = [FinalStep.stop (some 10), FinalStep.run, FinalStep.destroy] ∧
    edgecloudFinalSteps
        = [FinalStep.stop none, FinalStep.run, FinalStep.destroy] ∧
    wifiP2pExitCode = 0 ∧ edgecloudExitCode = 0 :=
  ⟨rfl, rfl, rfl, rfl⟩

/-- C6: every echo application of both programs has a hard-coded schedule,
independent of all command-line parameters: every `edgecloud_Stream2`
server starts at 1.0 s and client at 2.0 s with no stop call, and the
`wifi_p2p` server and client start at 1.0 s and 2.0 s and both stop at
10.0 s. -/
theorem c6_hard_coded_schedules (N S : Nat) (inst : EchoInstall)
    (h : inst ∈ (appLoop N S).installs) (B L : Nat) :
    (inst.serverStart = 1 ∧ inst.serverStop = none ∧
      inst.clientStart = 2 ∧ inst.clientStop = none) ∧
    ((appInstallW B L).serverStart = 1 ∧ (appInstallW B L).serverStop = some 10 ∧
      (appInstallW B L).clientStart = 2 ∧ (appInstallW B L).clientStop = some 10) := by
  refine ⟨?_, rfl, rfl, rfl, rfl⟩
  rw [installs_closed] at h
  obtain ⟨t, ht, hEq⟩ := List.mem_map.mp h
  rw [← hEq]
  exact ⟨rfl, rfl, rfl, rfl⟩

/-- Witness for C6 at `nWifis = 6`, `nStas = 4` (first installed pair) and
`backboneNodes = 3`, `lanNodes = 1`. -/
theorem c6_witness :
    mkInstall 6 12 ∈ (appLoop 6 4).installs ∧
    (((mkInstall 6 12).serverStart = 1 ∧ (mkInstall 6 12).serverStop = none ∧
       (mkInstall 6 12).clientStart = 2 ∧ (mkInstall 6 12).clientStop = none) ∧
     ((appInstallW 3 1).serverStart = 1 ∧ (appInstallW 3 1).serverStop = some 10 ∧
       (appInstallW 3 1).clientStart = 2 ∧ (appInstallW 3 1).clientStop = some 10)) :=
  ⟨by decide, c6_hard_coded_schedules 6 4 (mkInstall 6 12) (by decide) 3 1⟩

/-- C7: every loop of both programs runs a number of iterations that is a
function of the parsed parameters alone, so the construction and
application phases execute a finite, closed-form number of iterations for
every parameter value: `nWifis * (2 * nStas + 2)` iterations in
`edgecloud_Stream2` (of which `nWifis * nStas` are application installs)
and `backboneNodes * (infraNodes + 2)` in `wifi_p2p`. -/
theorem c7_fixed_loop_counts (N S B I : Nat) :
    (edgecloudIterTrace N S).length = N * (2 * S + 2) ∧
    (wifiP2pIterTrace B I).length = B * (I + 2) ∧
    ((appLoop N S).installs).length = N * S := by
  refine ⟨?_, ?_, installs_length N S⟩
  · simp only [edgecloudIterTrace, List.length_append]
    rw [length_flatMap_const _ _ 1 (by simp), length_flatMap_const _ _ (S + 1) (by simp),
      length_flatMap_const _ _ S (by simp)]
    simp only [List.length_range]
    ring
  · simp only [wifiP2pIterTrace, List.length_append]
    rw [length_flatMap_const _ _ 1 (by simp), length_flatMap_const _ _ (I + 1) (by simp)]
    simp only [List.length_range]
    ring

end EdgeSim

namespace EdgeSim

open EdgecloudStream2 WifiP2p

/-- C8 counterexample: at `nWifis = 2^31 + 1`, `nStas = 1`, outer
iteration `i = 2^31`, the source index is computed in `uint32_t`
arithmetic and wraps to 1, so it is not the mathematical value
`nWifis + 2 * (i / 2)` (which would be `2^32 + 1`). -/
theorem c8_counterexample :
    ¬ ((appLoop (2 ^ 31 + 1) 1).installs.getD (2 ^ 31) defaultInstall).serverNode
        = (2 ^ 31 + 1) + 2 * (2 ^ 31 / 2) := by
  rw [installs_getD (2 ^ 31 + 1) 1 (2 ^ 31) (by norm_num)]
  decide

/-- C8 (amended): the counter `k` is initialized to `uint32_t(-2)`
(`2^32 - 2`), the first even iteration wraps it to 0, and during outer
iteration `i` it holds `2 * (i / 2)` modulo `2^32`; hence for every
`i < nWifis`, `m < nStas` the source node index of the corresponding
install equals `(nWifis + 2 * (i / 2)) mod 2^32`, iterations `i` and its
even partner `2 * (i / 2)` share the same source node, and the source
node is never at an odd offset `2 * q + 1` above `nWifis`. -/
theorem c8_amended_source_formula (N S i m q : Nat) (hi : i < N) (hm : m < S) :
    kAfterIter 0 = 2 ^ 32 - 2 ∧
    kAfterIter 1 = 0 ∧
    kAfterIter (i + 1) = (2 * (i / 2)) % U32 ∧
    ((appLoop N S).installs.getD (i * S + m) defaultInstall).serverNode
      = (N + 2 * (i / 2)) % U32 ∧
    ((appLoop N S).installs.getD (i * S + m) defaultInstall).serverNode
      = ((appLoop N S).installs.getD (2 * (i / 2) * S + m) defaultInstall).serverNode ∧
    ¬ ((appLoop N S).installs.getD (i * S + m) defaultInstall).serverNode
        = N + (2 * q + 1) := by
  have hserver : ∀ x : Nat, x < N →
      ((appLoop N S).installs.getD (x * S + m) defaultInstall).serverNode
        = (N + 2 * (x / 2)) % U32 := by
    intro x hx
    rw [installs_getD N S _ (install_position_lt N S x m hx hm)]
    show serverIndex N ((x * S + m) / S) = _
    rw [install_position_div x S m hm]
    show (N + (2 * (x / 2)) % U32) % U32 = _
    rw [Nat.add_mod_mod]
  have hi2 : 2 * (i / 2) < N := by omega
  have hhalf : 2 * (i / 2) / 2 = i / 2 := by omega
  refine ⟨by decide, by decide, kAfterIter_succ i, hserver i hi, ?_, ?_⟩
  · rw [hserver i hi, hserver (2 * (i / 2)) hi2, hhalf]
  · rw [hserver i hi]
    simp only [U32]
    omega

/-- Witness for C8 (amended) at `nWifis = 6`, `nStas = 4`, `i = 3`,
`m = 2`, `q = 5`. -/
theorem c8_amended_witness :
    3 < 6 ∧ 2 < 4 ∧
    (kAfterIter 0 = 2 ^ 32 - 2 ∧
      kAfterIter 1 = 0 ∧
      kAfterIter (3 + 1) = (2 * (3 / 2)) % U32 ∧
      ((appLoop 6 4).installs.getD (3 * 4 + 2) defaultInstall).serverNode
        = (6 + 2 * (3 / 2)) % U32 ∧
      ((appLoop 6 4).installs.getD (3 * 4 + 2) defaultInstall).serverNode
        = ((appLoop 6 4).installs.getD (2 * (3 / 2) * 4 + 2) defaultInstall).serverNode ∧
      ¬ ((appLoop 6 4).installs.getD (3 * 4 + 2) defaultInstall).serverNode
          = 6 + (2 * 5 + 1)) :=
  ⟨by decide, by decide, c8_amended_source_formula 6 4 3 2 5 (by decide) (by decide)⟩

/-- C9: for every `nWifis ≥ 1` and `nStas ≥ 0` (any `S`, including 0),
the application loop of `edgecloud_Stream2` only computes indices of
existing nodes. The node set has `nWifis * (2 + nStas)` nodes; the
`firstNodeIndex` the outer loop computes and looks up during every
iteration `i < nWifis` - also when `nStas = 0` and the inner loop never
runs - is at most `2 * nWifis - 1` and below the node-list length; and
every recorded install (position `t < nWifis * nStas`) has its source
index at most `2 * nWifis - 1` and its sink index at most
`nWifis * (2 + nStas) - 1`, both below the node-list length. -/
theorem c9_indices_in_bounds (N S i t : Nat) (hN : 1 ≤ N) (hi : i < N) :
    (nodeList N S).length = N * (2 + S) ∧
    sourceLookup N S i ≤ 2 * N - 1 ∧
    sourceLookup N S i < (nodeList N S).length ∧
    (t < N * S →
      ((appLoop N S).installs.getD t defaultInstall).serverNode ≤ 2 * N - 1 ∧
      ((appLoop N S).installs.getD t defaultInstall).clientNode ≤ N * (2 + S) - 1 ∧
      ((appLoop N S).installs.getD t defaultInstall).serverNode < (nodeList N S).length ∧
      ((appLoop N S).installs.getD t defaultInstall).clientNode < (nodeList N S).length) := by
  have hexp : N * (2 + S) = 2 * N + N * S := by ring
  have hlook : sourceLookup N S i ≤ 2 * N - 1 := by
    have hk : (appLoopAux N S (i + 1)).k = kAfterIter (i + 1) := by
      rw [appLoopAux_closed N S (i + 1)]
    have h0 : sourceLookup N S i = (N + (2 * (i / 2)) % U32) % U32 := by
      rw [sourceLookup, hk, kAfterIter_succ]
    have h1 : (N + (2 * (i / 2)) % U32) % U32 ≤ N + (2 * (i / 2)) % U32 :=
      Nat.mod_le _ _
    have h2 : (2 * (i / 2)) % U32 ≤ 2 * (i / 2) := Nat.mod_le _ _
    have h3 : 2 * (i / 2) ≤ i := by omega
    omega
  refine ⟨nodeList_length N S, hlook, ?_, ?_⟩
  · rw [nodeList_length N S]
    omega
  · intro ht
    have hS : 0 < S := by
      rcases Nat.eq_zero_or_pos S with h | h
      · subst h
        simp at ht
      · exact h
    have hx : t / S < N := (Nat.div_lt_iff_lt_mul hS).mpr ht
    have hserver : ((appLoop N S).installs.getD t defaultInstall).serverNode
        ≤ 2 * N - 1 := by
      rw [installs_getD N S t ht]
      show serverIndex N (t / S) ≤ 2 * N - 1
      have h1 : serverIndex N (t / S) ≤ N + kDuring (t / S) := Nat.mod_le _ _
      have h2 : kDuring (t / S) ≤ 2 * (t / S / 2) := Nat.mod_le _ _
      have h3 : 2 * (t / S / 2) ≤ t / S := by omega
      omega
    have hclient : ((appLoop N S).installs.getD t defaultInstall).clientNode
        ≤ N * (2 + S) - 1 := by
      rw [installs_getD N S t ht]
      show clientIndex N t ≤ N * (2 + S) - 1
      have h1 : clientIndex N t ≤ N + N * p2pNode + t := Nat.mod_le _ _
      have h2 : N * p2pNode = N := Nat.mul_one N
      omega
    refine ⟨hserver, hclient, ?_, ?_⟩
    · rw [nodeList_length N S]
      omega
    · rw [nodeList_length N S]
      omega

/-- Witness for C9 at `nWifis = 6`, `nStas = 4`, outer iteration 3,
install position 13. -/
theorem c9_witness :
    1 ≤ 6 ∧ 3 < 6 ∧
    ((nodeList 6 4).length = 6 * (2 + 4) ∧
      sourceLookup 6 4 3 ≤ 2 * 6 - 1 ∧
      sourceLookup 6 4 3 < (nodeList 6 4).length ∧
      (13 < 6 * 4 →
        ((appLoop 6 4).installs.getD 13 defaultInstall).serverNode ≤ 2 * 6 - 1 ∧
        ((appLoop 6 4).installs.getD 13 defaultInstall).clientNode ≤ 6 * (2 + 4) - 1 ∧
        ((appLoop 6 4).installs.getD 13 defaultInstall).serverNode < (nodeList 6 4).length ∧
        ((appLoop 6 4).installs.getD 13 defaultInstall).clientNode < (nodeList 6 4).length)) :=
  ⟨by decide, by decide, c9_indices_in_bounds 6 4 3 13 (by decide) (by decide)⟩

/-- C10: with the default parameters of `wifi_p2p`
(`backboneNodes = 3`, `infraNodes = 2`, `lanNodes = 1`) the node set is
backbone nodes 0..2, LAN nodes 3..5, stations 6..11; the echo server goes
on node `firstNodeIndex = backboneNodes + 2 = 5`, the last LAN node (not
node 3, the first node created outside the backbone), and the echo client
goes on node `lastNodeIndex = backboneNodes + backboneNodes * lanNodes = 6`,
the first infrastructure station (not node 11, the last node created). -/
theorem c10_wifi_p2p_default_endpoints :
    nodeListW 3 2
        = List.replicate 3 NodeKindW.backbone ++ List.replicate 3 NodeKindW.lan
            ++ List.replicate 6 NodeKindW.sta ∧
    (nodeListW 3 2).length = 12 ∧
    firstNodeIndex 3 = 3 + 2 ∧
    (appInstallW 3 1).serverNode = 5 ∧
    (nodeListW 3 2).getD 5 NodeKindW.backbone = NodeKindW.lan ∧
    (nodeListW 3 2).getD 6 NodeKindW.backbone = NodeKindW.sta ∧
    lastNodeIndex 3 1 = 3 + 3 * 1 ∧
    (appInstallW 3 1).clientNode = 6 ∧
    ¬ firstNodeIndex 3 = 3 ∧
    ¬ lastNodeIndex 3 1 = 12 - 1 := by decide

end EdgeSim
